import Mathlib

/-!
# Verification of the DevDocs crawl-and-ingest pipeline

Shallow embedding of `src/lib/devdocs-scraper.ts` (class `DevDocsScraper`)
together with the data model of `src/lib/types.ts`.

Modelling conventions:
* JavaScript numbers used for the progress percentage are modelled as exact
  rationals (`ℚ`); all counters are `Nat`.
* Network and database I/O is modelled by oracles carried in an `Env` record:
  the manifest fetch result, a per-path page fetch result, the
  `knowledge_sources` lookup, and fault schedules telling which job-store /
  content-store operations throw.  The `try/catch` blocks of `updateJob` and
  `saveContent` are translated as: on a scheduled fault the store state is
  left unchanged and the function returns normally (the source logs the
  error and falls through).
* `cheerio` parsing is modelled by `PageMarkup`: the data the source actually
  queries from the parsed document — the text of the `._content` region (if
  present), and the headings / paragraphs / `pre code` elements inside it.
  `cheerio.load` itself never throws on malformed markup; a malformed page is
  a `PageMarkup` whose `contentRegion` is `none` (queries on an empty
  selection yield empty text / empty element lists).
* `crypto.createHash('sha256')` is modelled by an arbitrary digest function
  `hash : String → String` in the environment: every claim in scope depends
  only on the fact that the digest is a function of the string it is fed.
-/

/-! ## String helpers mirroring the JavaScript string operations -/

/-- JS `\w` character class: `[A-Za-z0-9_]` (`Char.isAlphanum` is ASCII-only,
matching the regex). -/
def isWordChar (c : Char) : Bool := c.isAlphanum || c = '_'

/-- JS `String.prototype.trim`: drop whitespace from both ends.  (Defined
over the character list so that it evaluates by kernel reduction; Lean core
string functions using position arithmetic do not.) -/
def jsTrim (s : String) : String :=
  String.mk
    (((s.data.dropWhile Char.isWhitespace).reverse.dropWhile
        Char.isWhitespace).reverse)

/-- JS `String.prototype.toLowerCase` (ASCII, which is all the source's
keyword logic distinguishes). -/
def jsToLower (s : String) : String := String.mk (s.data.map Char.toLower)

/-- Whether `pat` is an initial segment of `cs`. -/
def headMatches : List Char → List Char → Bool
  | [], _ => true
  | _ :: _, [] => false
  | p :: ps, c :: cs => p = c && headMatches ps cs

/-- Fuel-driven splitting of a character list on every (non-overlapping,
left-to-right) occurrence of a non-empty separator, mirroring JS
`String.prototype.split` with a string argument.  The fuel only needs to be
at least the input length; it makes the recursion structural so that the
function evaluates by kernel reduction. -/
def splitOnFuel (sep : List Char) : Nat → List Char → List Char →
    List (List Char)
  | _, [], acc => [acc.reverse]
  | 0, _ :: _, acc => [acc.reverse]
  | fuel + 1, c :: cs, acc =>
    if sep ≠ [] && headMatches sep (c :: cs) then
      acc.reverse :: splitOnFuel sep fuel ((c :: cs).drop sep.length) []
    else splitOnFuel sep fuel cs (c :: acc)

/-- JS `s.split(pat)` for a non-empty string pattern. -/
def splitOnList (sep : List Char) (l : List Char) : List (List Char) :=
  splitOnFuel sep l.length l []

/-- Joining with a separator (JS array join / the inverse of split). -/
def intercalateList (sep : String) : List String → String
  | [] => ""
  | [x] => x
  | x :: xs => x ++ sep ++ intercalateList sep xs

/-- Split a character list into the maximal runs of characters satisfying
`keep`.  Runs of separator characters contribute empty runs (mirroring the
empty strings `String.prototype.split` can produce); every caller filters
those out, exactly as the source filters them by `filter(Boolean)` or by a
minimum length. -/
def splitRuns (keep : Char → Bool) (cs : List Char) : List (List Char) :=
  cs.foldr
    (fun c acc =>
      if keep c then
        match acc with
        | [] => [[c]]
        | r :: rs => (c :: r) :: rs
      else [] :: acc)
    []

/-- `content.split(/\s+/).filter(Boolean).length` from `scrapePage`. -/
def countWords (s : String) : Nat :=
  ((splitRuns (fun c => !c.isWhitespace) s.toList).filter (fun r => r ≠ [])).length

/-- JS `String.prototype.replace` with a string pattern replaces only the
first occurrence. -/
def replaceFirst (s pat : String) : String :=
  match splitOnList pat.data s.data with
  | [] => s
  | [x] => String.mk x
  | x :: rest => String.mk x ++ intercalateList pat (rest.map String.mk)

/-- `$(elem).attr('class')?.replace('language-', '') || 'plaintext'` from
`scrapePage`: a missing class attribute, or one that becomes the empty string
(falsy) after the replacement, yields `"plaintext"`. -/
def snippetLang (classAttr : Option String) : String :=
  match classAttr with
  | none => "plaintext"
  | some c =>
    let lang := replaceFirst c "language-"
    if lang = "" then "plaintext" else lang

/-- Same expression in `htmlToMarkdown`, where the falsy default is `''`. -/
def markdownLang (classAttr : Option String) : String :=
  match classAttr with
  | none => ""
  | some c => replaceFirst c "language-"

/-! ## Keyword extraction (`DevDocsScraper.extractKeywords`) -/

/-- One `frequency[word] = (frequency[word] || 0) + 1` step on an association
list kept in first-insertion order (JS object string keys enumerate in
insertion order; purely numeric keys would enumerate first, a corner the
claims do not touch). -/
def bump (acc : List (String × Nat)) (w : String) : List (String × Nat) :=
  if acc.any (fun p => p.1 = w) then
    acc.map (fun p => if p.1 = w then (p.1, p.2 + 1) else p)
  else acc ++ [(w, 1)]

/-- Stable insertion of one entry into a list sorted by descending count:
the new entry goes before the first entry with a count `≤` its own, so that
entries with equal counts keep their original relative order — the behaviour
of the (stable, ES2019) `sort((a, b) => b[1] - a[1])` in the source. -/
def insertDesc (x : String × Nat) : List (String × Nat) → List (String × Nat)
  | [] => [x]
  | y :: ys => if y.2 ≤ x.2 then x :: y :: ys else y :: insertDesc x ys

/-- Stable sort by descending count. -/
def sortDescByCount (l : List (String × Nat)) : List (String × Nat) :=
  l.foldr insertDesc []

/-- `DevDocsScraper.extractKeywords`: lowercase, split on `\W+`, keep words
longer than 3 characters, count frequencies, sort descending, take the top
10 words. -/
def extractKeywords (content : String) : List String :=
  let words :=
    ((splitRuns isWordChar (jsToLower content).toList).map
        (fun r => String.mk r)).filter (fun w => 3 < w.length)
  let frequency := words.foldl bump []
  ((sortDescByCount frequency).take 10).map (fun p => p.1)

/-! ## Data model (`src/lib/types.ts`) -/

/-- `DevDocsEntry`: one page of a documentation set, from the manifest. -/
structure DevDocsEntry where
  name : String
  path : String
  type : String
deriving DecidableEq, Repr

/-- `CodeSnippet`. -/
structure CodeSnippet where
  language : String
  code : String
deriving DecidableEq, Repr

/-- `ScrapeResult`: the outcome of one `scrapePage` attempt.  `markdown` and
`error` are `Option` because the source populates each on only one branch. -/
structure ScrapeResult where
  success : Bool
  url : String
  title : String
  content : String
  markdown : Option String
  codeSnippets : List CodeSnippet
  wordCount : Nat
  characterCount : Nat
  keywords : List String
  topics : List String
  error : Option String
deriving DecidableEq, Repr

/-- Status values of `ScrapingJob.status` in `types.ts`. -/
inductive JobStatus where
  | pending
  | running
  | completed
  | failed
  | cancelled
  | paused
deriving DecidableEq, Repr

/-- The fields of `ScrapingJob` the crawl logic reads or writes.  The
timestamp columns are modelled as set/unset flags: the source only ever
writes `new Date().toISOString()` into them, and no claim depends on the
actual instant. -/
structure ScrapingJob where
  status : JobStatus
  total_urls : Nat
  urls_processed : Nat
  urls_failed : Nat
  progress_percentage : ℚ
  items_scraped : Nat
  items_new : Nat
  items_updated : Nat
  items_unchanged : Nat
  error_message : Option String
  started_at : Bool
  completed_at : Bool
deriving DecidableEq, Repr

/-- The `contentData` record assembled in `saveContent` and upserted into
`knowledge_content`. -/
structure ContentData where
  source_id : String
  url : String
  title : String
  content_type : String
  content : String
  markdown : Option String
  code_snippets : List CodeSnippet
  word_count : Nat
  character_count : Nat
  keywords : List String
  topics : List String
  content_hash : String
  processed : Bool
deriving DecidableEq, Repr

/-! ## Parsed page model -/

/-- A heading element inside the content region: its level (1–6) and text. -/
structure Heading where
  level : Nat
  text : String
deriving DecidableEq, Repr

/-- A `pre code` element inside the content region. -/
structure CodeElem where
  classAttr : Option String
  text : String
deriving DecidableEq, Repr

/-- The `._content` region of a parsed page, as seen through the cheerio
queries the source makes. -/
structure ContentRegion where
  text : String
  headings : List Heading
  paragraphs : List String
  codeBlocks : List CodeElem
deriving DecidableEq, Repr

/-- A parsed page.  `contentRegion = none` models any markup (however
malformed) in which the `._content` selector matches nothing: cheerio
parses it without throwing and every query on the empty selection yields
empty text and empty element lists. -/
structure PageMarkup where
  contentRegion : Option ContentRegion
deriving DecidableEq, Repr

/-! ## Extraction (the pure body of `DevDocsScraper.scrapePage`) -/

/-- `https://devdocs.io` (`DEVDOCS_BASE`). -/
def DEVDOCS_BASE : String := "https://devdocs.io"

/-- The page URL built at the top of `scrapePage`. -/
def pageUrl (docSlug : String) (entry : DevDocsEntry) : String :=
  DEVDOCS_BASE ++ "/" ++ docSlug ++ "/" ++ entry.path

/-- `$('._content').text()`: empty text when the selector matches nothing. -/
def regionText (p : PageMarkup) : String :=
  match p.contentRegion with
  | none => ""
  | some r => r.text

/-- `$('._content pre code')`: no elements when the selector matches
nothing. -/
def regionCodeBlocks (p : PageMarkup) : List CodeElem :=
  match p.contentRegion with
  | none => []
  | some r => r.codeBlocks

/-- `DevDocsScraper.htmlToMarkdown` applied to the content region: headings,
then paragraphs, then fenced code blocks, each followed by a blank line, and
the whole string trimmed. -/
def htmlToMarkdown (p : PageMarkup) : String :=
  match p.contentRegion with
  | none => jsTrim ""
  | some r =>
    let hs := r.headings.foldl
      (fun acc h =>
        acc ++ String.mk (List.replicate h.level '#') ++ " " ++ jsTrim h.text
          ++ "\n\n")
      ""
    let ps := r.paragraphs.foldl (fun acc t => acc ++ jsTrim t ++ "\n\n") hs
    let cs := r.codeBlocks.foldl
      (fun acc e =>
        acc ++ "```" ++ markdownLang e.classAttr ++ "\n" ++ jsTrim e.text
          ++ "\n```\n\n")
      ps
    jsTrim cs

/-- The `try` branch of `scrapePage` after the fetch resolved: the pure
extraction of a `ScrapeResult` from the parsed page. -/
def extractRecord (docSlug : String) (entry : DevDocsEntry) (p : PageMarkup) :
    ScrapeResult :=
  let content := jsTrim (regionText p)
  let codeSnippets := (regionCodeBlocks p).filterMap fun e =>
    let code := jsTrim e.text
    if code = "" then none else some ⟨snippetLang e.classAttr, code⟩
  { success := true
    url := pageUrl docSlug entry
    title := entry.name
    content := content
    markdown := some (htmlToMarkdown p)
    codeSnippets := codeSnippets
    wordCount := countWords content
    characterCount := content.length
    keywords := extractKeywords content
    topics := docSlug :: entry.type
      :: ((splitOnList ['/'] entry.name.data).map String.mk).take 2
    error := none }

/-- The `catch` branch of `scrapePage`: a failure record for the item. -/
def failureRecord (docSlug : String) (entry : DevDocsEntry) (msg : String) :
    ScrapeResult :=
  { success := false
    url := pageUrl docSlug entry
    title := entry.name
    content := ""
    markdown := none
    codeSnippets := []
    wordCount := 0
    characterCount := 0
    keywords := []
    topics := []
    error := some msg }

/-! ## Environment and run state -/

/-- The I/O oracles of one crawl run (see the header comment). -/
structure Env where
  hash : String → String
  manifest : Except String (List DevDocsEntry)
  fetchPage : String → Except String PageMarkup
  sourceLookup : Option String
  concurrency : Nat
  jobFault : Nat → Bool
  saveFault : Nat → Bool

/-- `DevDocsScraper.scrapePage`: fetch the page, extract on success, return
the failure record when the fetch (the only throwing step) fails. -/
def scrapePage (env : Env) (docSlug : String) (entry : DevDocsEntry) :
    ScrapeResult :=
  match env.fetchPage entry.path with
  | .ok p => extractRecord docSlug entry p
  | .error msg => failureRecord docSlug entry msg

/-- Whether the page fetch for an entry succeeds in a given environment. -/
def fetchOk (env : Env) (entry : DevDocsEntry) : Bool :=
  match env.fetchPage entry.path with
  | .ok _ => true
  | .error _ => false

/-- The mutable state threaded through one crawl run: the job-store row, the
`knowledge_content` store (an association list keyed by URL, in insertion
order), the scraper's cached `sourceId`, operation counters indexing the
fault schedules, and the trace of job-store states after every update — the
states an observer polling the job store can see. -/
structure RunState where
  job : ScrapingJob
  store : List (String × ContentData)
  sourceId : Option String
  jobOps : Nat
  saveOps : Nat
  trace : List ScrapingJob
deriving Repr

/-- `DevDocsScraper.updateJob`: a partial merge of fields into the job row,
with the whole operation wrapped in `try/catch` — a throwing store write
leaves the row unchanged and returns normally. -/
def updateJob (env : Env) (s : RunState) (f : ScrapingJob → ScrapingJob) :
    RunState :=
  if env.jobFault s.jobOps then
    { s with jobOps := s.jobOps + 1, trace := s.trace ++ [s.job] }
  else
    let j := f s.job
    { s with job := j, jobOps := s.jobOps + 1, trace := s.trace ++ [j] }

/-- Lookup of `knowledge_content` by URL (`.eq('url', ...).single()`). -/
def storeLookup (store : List (String × ContentData)) (url : String) :
    Option ContentData :=
  match store with
  | [] => none
  | (u, d) :: rest => if u = url then some d else storeLookup rest url

/-- The `update ... .eq('id', existing.id)` branch: replace the row with the
matching URL. -/
def storeUpdate (store : List (String × ContentData)) (url : String)
    (d : ContentData) : List (String × ContentData) :=
  store.map fun p => if p.1 = url then (p.1, d) else p

/-- The `insert` branch: append a new row. -/
def storeInsert (store : List (String × ContentData)) (url : String)
    (d : ContentData) : List (String × ContentData) :=
  store ++ [(url, d)]

/-- The content fingerprint of `saveContent`: the digest is computed over
`result.content` — the normalized body text — and nothing else; code
snippets, markdown, title and counts are carried in the record but never
fed to the digest. -/
def contentFingerprint (hash : String → String) (r : ScrapeResult) : String :=
  hash r.content

/-- The `contentData` object assembled in `saveContent`. -/
def mkContentData (sourceId : String) (hash : String → String)
    (r : ScrapeResult) : ContentData :=
  { source_id := sourceId
    url := r.url
    title := r.title
    content_type := "documentation_page"
    content := r.content
    markdown := r.markdown
    code_snippets := r.codeSnippets
    word_count := r.wordCount
    character_count := r.characterCount
    keywords := r.keywords
    topics := r.topics
    content_hash := contentFingerprint hash r
    processed := false }

/-- The body of `saveContent` once inside the `try`: resolve (and cache) the
source id — bailing out with no write when it cannot be found — then compute
the fingerprint, look up the prior row for the URL, and skip / update /
insert.  Returns the new content store and the new cached source id. -/
def saveStep (env : Env) (store : List (String × ContentData))
    (cached : Option String) (r : ScrapeResult) :
    List (String × ContentData) × Option String :=
  let sid := match cached with
    | some i => some i
    | none => env.sourceLookup
  match sid with
  | none => (store, none)
  | some i =>
    let contentHash := contentFingerprint env.hash r
    match storeLookup store r.url with
    | some existing =>
      if existing.content_hash = contentHash then (store, some i)
      else (storeUpdate store r.url (mkContentData i env.hash r), some i)
    | none => (storeInsert store r.url (mkContentData i env.hash r), some i)

/-- `DevDocsScraper.saveContent`: the whole body is wrapped in `try/catch`,
so a throwing store operation leaves the store unchanged and returns
normally. -/
def saveContent (env : Env) (s : RunState) (r : ScrapeResult) : RunState :=
  if env.saveFault s.saveOps then
    { s with saveOps := s.saveOps + 1 }
  else
    let p := saveStep env s.store s.sourceId r
    { s with store := p.1, sourceId := p.2, saveOps := s.saveOps + 1 }

/-! ## The batch loop of `DevDocsScraper.scrapeDoc` -/

/-- The batching of `for (let i = 0; i < entries.length; i += concurrency)`
with `entries.slice(i, i + concurrency)`: consecutive chunks of size `k`,
the last possibly smaller.  (With `k = 0` the source loop would never
advance; the configuration constructor guarantees `k ≥ 1` because `0` is
falsy in `config?.concurrency || 3`, so the model is only ever used with
`k > 0`.) -/
def chunksOfFuel (k : Nat) : Nat → List α → List (List α)
  | _, [] => []
  | 0, _ :: _ => []
  | fuel + 1, x :: xs => (x :: xs).take k :: chunksOfFuel k fuel ((x :: xs).drop k)

def chunksOf (k : Nat) (l : List α) : List (List α) :=
  if k = 0 then [] else chunksOfFuel k l.length l

/-- The fuel is irrelevant as long as it is at least the list length (each
step consumes at least one element because `k ≥ 1`). -/
theorem chunksOfFuel_fuel (k : Nat) (hk : k ≠ 0) :
    ∀ (f₁ : Nat) (l : List α) (f₂ : Nat), l.length ≤ f₁ → l.length ≤ f₂ →
      chunksOfFuel k f₁ l = chunksOfFuel k f₂ l := by
  intro f₁
  induction f₁ with
  | zero =>
    intro l f₂ h1 h2
    have h0 : l = [] := List.eq_nil_of_length_eq_zero (Nat.le_zero.mp h1)
    subst h0
    cases f₂ <;> rfl
  | succ n ih =>
    intro l f₂ h1 h2
    cases l with
    | nil => cases f₂ <;> rfl
    | cons x xs =>
      cases f₂ with
      | zero => simp at h2
      | succ m =>
        show (x :: xs).take k :: chunksOfFuel k n ((x :: xs).drop k)
            = (x :: xs).take k :: chunksOfFuel k m ((x :: xs).drop k)
        have hd : ((x :: xs).drop k).length ≤ n := by
          simp only [List.length_drop, List.length_cons] at h1 ⊢
          omega
        have hd2 : ((x :: xs).drop k).length ≤ m := by
          simp only [List.length_drop, List.length_cons] at h2 ⊢
          omega
        rw [ih ((x :: xs).drop k) m hd hd2]

/-- The in-memory accumulator of the scrape loop: the run state plus the
local `successCount` / `failedCount` variables. -/
structure LoopAcc where
  st : RunState
  succ : Nat
  fld : Nat

/-- The body of `for (const result of results)`: save successful results and
bump the matching counter, then write the progress snapshot into the job
row (`urls_processed`, `urls_failed`, `progress_percentage`,
`items_scraped`).  The progress callback is observational and elided. -/
def handleResult (env : Env) (total : Nat) (acc : LoopAcc) (r : ScrapeResult) :
    LoopAcc :=
  let st := if r.success then saveContent env acc.st r else acc.st
  let succ := if r.success then acc.succ + 1 else acc.succ
  let fld := if r.success then acc.fld else acc.fld + 1
  let processed := succ + fld
  let progress : ℚ := ((processed : ℚ) / (total : ℚ)) * 100
  let st := updateJob env st fun j =>
    { j with
      urls_processed := processed
      urls_failed := fld
      progress_percentage := progress
      items_scraped := succ }
  ⟨st, succ, fld⟩

/-- `scrapeDoc` after the manifest resolved: record the total and the
`running` transition, process the entries in batches of `concurrency`
(each batch is fully awaited before the next starts; the inter-batch delay
changes no modelled state and is elided), then record the `completed`
transition and return the in-memory counts. -/
def scrapeDocEntries (env : Env) (docSlug : String) (s0 : RunState)
    (entries : List DevDocsEntry) : RunState × Nat × Nat × Nat :=
  let total := entries.length
  let s1 := updateJob env s0 fun j =>
    { j with total_urls := total, status := .running, started_at := true }
  let acc := (chunksOf env.concurrency entries).foldl
    (fun a batch =>
      (batch.map (scrapePage env docSlug)).foldl (handleResult env total) a)
    ⟨s1, 0, 0⟩
  let s2 := updateJob env acc.st fun j =>
    { j with status := .completed, completed_at := true }
  (s2, acc.succ, acc.fld, total)

/-- `DevDocsScraper.scrapeDoc`.  `getDocEntries` rethrows its fetch error and
`scrapeDoc` does not catch it, so a manifest failure propagates to the
caller before any job update or per-item work. -/
def scrapeDoc (env : Env) (docSlug : String) (s0 : RunState) :
    Except String (RunState × Nat × Nat × Nat) :=
  match env.manifest with
  | .error e => .error e
  | .ok entries => .ok (scrapeDocEntries env docSlug s0 entries)

/-- Modelled from the spec: Job creation lives in the excluded caller-facing
trigger layer (spec §6); per spec §4.5 `createJob` yields a Job with status
`pending`, all counters zero and `total = 0`. -/
def newJob : ScrapingJob :=
  { status := .pending
    total_urls := 0
    urls_processed := 0
    urls_failed := 0
    progress_percentage := 0
    items_scraped := 0
    items_new := 0
    items_updated := 0
    items_unchanged := 0
    error_message := none
    started_at := false
    completed_at := false }

/-- The state at the start of a run: a freshly created pending job, an empty
content store, no cached source id, and an empty observation trace. -/
def initState : RunState :=
  { job := newJob, store := [], sourceId := none, jobOps := 0, saveOps := 0
    trace := [] }

/-- A run starting from a given content store (used to model a second crawl
over the same target). -/
def initStateWith (store : List (String × ContentData)) : RunState :=
  { initState with store := store }

/-- Modelled from the spec: the run-level driver.  The code under `src/`
lets a manifest failure escape `scrapeDoc`; the spec (§4.6, §7) assigns the
handling of that failure to the driving layer, which must fail the Job with
a recorded `ManifestUnavailable` message.  On success the driver returns the
final run state unchanged. -/
def runCrawl (env : Env) (docSlug : String) : RunState :=
  match scrapeDoc env docSlug initState with
  | .ok (s, _, _, _) => s
  | .error e =>
    updateJob env initState fun j =>
      { j with status := .failed
               error_message := some ("ManifestUnavailable: " ++ e) }

/-- The job-store states an observer polling the store during a run can see:
the state at job creation followed by the state after every update. -/
def observedJobs (s0 : RunState) (s : RunState) : List ScrapingJob :=
  s0.job :: s.trace

/-! ## Chunking lemmas -/

theorem chunksOf_nil (k : Nat) : chunksOf k ([] : List α) = [] := by
  unfold chunksOf
  split <;> rfl

theorem chunksOf_zero (l : List α) : chunksOf 0 l = [] := by
  unfold chunksOf
  simp

theorem chunksOf_cons (k : Nat) (hk : k ≠ 0) (l : List α) (hl : l ≠ []) :
    chunksOf k l = l.take k :: chunksOf k (l.drop k) := by
  unfold chunksOf
  simp only [hk, if_false]
  cases l with
  | nil => exact absurd rfl hl
  | cons x xs =>
    show (x :: xs).take k :: chunksOfFuel k xs.length ((x :: xs).drop k)
        = (x :: xs).take k
            :: chunksOfFuel k ((x :: xs).drop k).length ((x :: xs).drop k)
    have hd : ((x :: xs).drop k).length ≤ xs.length := by
      simp only [List.length_drop, List.length_cons]
      omega
    rw [chunksOfFuel_fuel k hk xs.length ((x :: xs).drop k)
        ((x :: xs).drop k).length hd le_rfl]

/-- Ceiling-division step used by `chunksOf_length`. -/
theorem ceilDiv_step (k m : Nat) (hk : 0 < k) (hm : 0 < m) :
    (m - k + k - 1) / k + 1 = (m + k - 1) / k := by
  rcases le_or_lt m k with h | h
  · have h1 : m - k = 0 := Nat.sub_eq_zero_of_le h
    rw [h1]
    simp only [Nat.zero_add]
    rw [Nat.div_eq_of_lt (by omega)]
    have h2 : m + k - 1 = (m - 1) + k := by omega
    rw [h2, Nat.add_div_right _ hk, Nat.div_eq_of_lt (by omega)]
  · have h2 : m + k - 1 = (m - k + k - 1) + k := by omega
    rw [h2, Nat.add_div_right _ hk]

/-- The batch loop issues exactly `⌈n / k⌉ = (n + k - 1) / k` batches. -/
theorem chunksOf_length (k : Nat) (hk : 0 < k) (l : List α) :
    (chunksOf k l).length = (l.length + k - 1) / k := by
  suffices H : ∀ (n : Nat) (l : List α), l.length ≤ n →
      (chunksOf k l).length = (l.length + k - 1) / k from H l.length l le_rfl
  intro n
  induction n with
  | zero =>
    intro l hl
    have h0 : l = [] := List.eq_nil_of_length_eq_zero (Nat.le_zero.mp hl)
    subst h0
    rw [chunksOf_nil]
    simp only [List.length_nil]
    symm
    apply Nat.div_eq_of_lt
    omega
  | succ n ih =>
    intro l hl
    by_cases hnil : l = []
    · subst hnil
      rw [chunksOf_nil]
      simp only [List.length_nil]
      symm
      apply Nat.div_eq_of_lt
      omega
    · rw [chunksOf_cons k (Nat.pos_iff_ne_zero.mp hk) l hnil]
      have hpos : 0 < l.length := List.length_pos.mpr hnil
      have hdrop : (l.drop k).length ≤ n := by
        simp only [List.length_drop]
        omega
      simp only [List.length_cons, ih (l.drop k) hdrop, List.length_drop]
      exact ceilDiv_step k l.length hk hpos

/-- Concatenating the batches in order gives back the original work list:
the batches are consecutive and jointly exhaustive. -/
theorem chunksOf_join (k : Nat) (hk : 0 < k) (l : List α) :
    (chunksOf k l).flatten = l := by
  suffices H : ∀ (n : Nat) (l : List α), l.length ≤ n → (chunksOf k l).flatten = l
    from H l.length l le_rfl
  intro n
  induction n with
  | zero =>
    intro l hl
    have h0 : l = [] := List.eq_nil_of_length_eq_zero (Nat.le_zero.mp hl)
    subst h0
    rw [chunksOf_nil]
    rfl
  | succ n ih =>
    intro l hl
    by_cases hnil : l = []
    · subst hnil
      rw [chunksOf_nil]
      rfl
    · rw [chunksOf_cons k (Nat.pos_iff_ne_zero.mp hk) l hnil]
      have hpos : 0 < l.length := List.length_pos.mpr hnil
      have hdrop : (l.drop k).length ≤ n := by
        simp only [List.length_drop]
        omega
      simp only [List.flatten_cons, ih (l.drop k) hdrop]
      exact List.take_append_drop k l

/-- Every batch except the last has exactly `k` items. -/
theorem chunksOf_sizes (k : Nat) (hk : 0 < k) (l : List α) :
    ∀ c ∈ (chunksOf k l).dropLast, c.length = k := by
  suffices H : ∀ (n : Nat) (l : List α), l.length ≤ n →
      ∀ c ∈ (chunksOf k l).dropLast, c.length = k from H l.length l le_rfl
  intro n
  induction n with
  | zero =>
    intro l hl
    have h0 : l = [] := List.eq_nil_of_length_eq_zero (Nat.le_zero.mp hl)
    subst h0
    rw [chunksOf_nil]
    intro c hc
    simp at hc
  | succ n ih =>
    intro l hl
    by_cases hnil : l = []
    · subst hnil
      rw [chunksOf_nil]
      intro c hc
      simp at hc
    · rw [chunksOf_cons k (Nat.pos_iff_ne_zero.mp hk) l hnil]
      rcases hrest : chunksOf k (l.drop k) with _ | ⟨c0, cs⟩
      · intro c hc
        simp at hc
      · have hdropne : l.drop k ≠ [] := by
          intro hd
          rw [hd, chunksOf_nil] at hrest
          exact List.noConfusion hrest
        have hklt : k < l.length := by
          by_contra hle
          push_neg at hle
          exact hdropne (List.drop_eq_nil_of_le hle)
        have hdrop : (l.drop k).length ≤ n := by
          simp only [List.length_drop]
          omega
        intro c hc
        rw [List.dropLast_cons₂] at hc
        rcases List.mem_cons.mp hc with hc | hc
        · subst hc
          simp only [List.length_take]
          omega
        · have := ih (l.drop k) hdrop
          rw [hrest] at this
          exact this c hc

/-- Folding batch-by-batch (each batch fully consumed before the next
starts) is the same as folding the items in order: the sequential structure
of the batch loop. -/
theorem foldl_chunksOf (k : Nat) (hk : 0 < k) (l : List α)
    (f : β → α → β) (init : β) :
    (chunksOf k l).foldl (fun a b => b.foldl f a) init = l.foldl f init := by
  suffices H : ∀ (n : Nat) (l : List α) (init : β), l.length ≤ n →
      (chunksOf k l).foldl (fun a b => b.foldl f a) init = l.foldl f init
    from H l.length l init le_rfl
  intro n
  induction n with
  | zero =>
    intro l init hl
    have h0 : l = [] := List.eq_nil_of_length_eq_zero (Nat.le_zero.mp hl)
    subst h0
    rw [chunksOf_nil]
    rfl
  | succ n ih =>
    intro l init hl
    by_cases hnil : l = []
    · subst hnil
      rw [chunksOf_nil]
      rfl
    · rw [chunksOf_cons k (Nat.pos_iff_ne_zero.mp hk) l hnil]
      have hpos : 0 < l.length := List.length_pos.mpr hnil
      have hdrop : (l.drop k).length ≤ n := by
        simp only [List.length_drop]
        omega
      simp only [List.foldl_cons]
      rw [ih (l.drop k) ((l.take k).foldl f init) hdrop]
      rw [← List.foldl_append, List.take_append_drop]

/-! ## Elementary facts about the state operations -/

theorem saveContent_job (env : Env) (s : RunState) (r : ScrapeResult) :
    (saveContent env s r).job = s.job := by
  unfold saveContent
  split <;> rfl

theorem saveContent_trace (env : Env) (s : RunState) (r : ScrapeResult) :
    (saveContent env s r).trace = s.trace := by
  unfold saveContent
  split <;> rfl

theorem saveContent_jobOps (env : Env) (s : RunState) (r : ScrapeResult) :
    (saveContent env s r).jobOps = s.jobOps := by
  unfold saveContent
  split <;> rfl

theorem updateJob_store (env : Env) (s : RunState) (f : ScrapingJob → ScrapingJob) :
    (updateJob env s f).store = s.store := by
  unfold updateJob
  split <;> rfl

theorem updateJob_saveOps (env : Env) (s : RunState) (f : ScrapingJob → ScrapingJob) :
    (updateJob env s f).saveOps = s.saveOps := by
  unfold updateJob
  split <;> rfl

theorem updateJob_sourceId (env : Env) (s : RunState) (f : ScrapingJob → ScrapingJob) :
    (updateJob env s f).sourceId = s.sourceId := by
  unfold updateJob
  split <;> rfl

/-- Whatever the fault schedule does, the trace after an update ends with
the (possibly unchanged) job row now in the store. -/
theorem updateJob_trace (env : Env) (s : RunState) (f : ScrapingJob → ScrapingJob) :
    (updateJob env s f).trace = s.trace ++ [(updateJob env s f).job] := by
  unfold updateJob
  split <;> rfl

/-- An update either throws (row unchanged) or applies the merge. -/
theorem updateJob_job_cases (env : Env) (s : RunState) (f : ScrapingJob → ScrapingJob) :
    (updateJob env s f).job = s.job ∨ (updateJob env s f).job = f s.job := by
  unfold updateJob
  split
  · exact Or.inl rfl
  · exact Or.inr rfl

theorem updateJob_job (env : Env) (s : RunState) (f : ScrapingJob → ScrapingJob)
    (h : env.jobFault s.jobOps = false) :
    (updateJob env s f).job = f s.job := by
  unfold updateJob
  simp [h]

theorem scrapePage_success (env : Env) (slug : String) (e : DevDocsEntry) :
    (scrapePage env slug e).success = fetchOk env e := by
  unfold scrapePage fetchOk
  cases env.fetchPage e.path <;> rfl

theorem handleResult_succ (env : Env) (total : Nat) (acc : LoopAcc)
    (r : ScrapeResult) :
    (handleResult env total acc r).succ =
      if r.success then acc.succ + 1 else acc.succ := rfl

theorem handleResult_fld (env : Env) (total : Nat) (acc : LoopAcc)
    (r : ScrapeResult) :
    (handleResult env total acc r).fld =
      if r.success then acc.fld else acc.fld + 1 := rfl

/-! ## Flattening the batch loop -/

/-- The batch loop of `scrapeDocEntries` consumes exactly the per-item
results, in manifest order. -/
theorem scrapeLoop_flatten (env : Env) (slug : String) (total : Nat)
    (entries : List DevDocsEntry) (hk : 0 < env.concurrency) (a0 : LoopAcc) :
    (chunksOf env.concurrency entries).foldl
        (fun a batch =>
          (batch.map (scrapePage env slug)).foldl (handleResult env total) a) a0
      = (entries.map (scrapePage env slug)).foldl (handleResult env total) a0 := by
  have h1 : ∀ (batch : List DevDocsEntry) (a : LoopAcc),
      (batch.map (scrapePage env slug)).foldl (handleResult env total) a
        = batch.foldl
            (fun x e => handleResult env total x (scrapePage env slug e)) a :=
    fun batch a => List.foldl_map _ _ _ _
  simp only [h1]
  rw [foldl_chunksOf env.concurrency hk]

/-! ## Counting lemmas for the in-memory counters -/

theorem loop_counts (env : Env) (total : Nat) (rs : List ScrapeResult) :
    ∀ acc : LoopAcc,
      (rs.foldl (handleResult env total) acc).succ
          = acc.succ + rs.countP (fun r => r.success) ∧
      (rs.foldl (handleResult env total) acc).fld
          = acc.fld + rs.countP (fun r => !r.success) := by
  induction rs with
  | nil =>
    intro acc
    simp
  | cons r rs ih =>
    intro acc
    simp only [List.foldl_cons, List.countP_cons]
    obtain ⟨ihs, ihf⟩ := ih (handleResult env total acc r)
    rw [ihs, ihf, handleResult_succ, handleResult_fld]
    cases hr : r.success <;> simp <;> omega

/-! ## The job-row invariant -/

/-- The exact shape of the job row during the item loop, once the `running`
update has set the total: the counters mirror the in-memory
`successCount` / `failedCount`, and the progress is the expression
`(processed / total) * 100` the source writes. -/
def JobShape (total succ fld : Nat) (j : ScrapingJob) : Prop :=
  j.started_at = true ∧
  j.total_urls = total ∧
  j.items_scraped = succ ∧
  j.urls_failed = fld ∧
  j.urls_processed = succ + fld ∧
  j.progress_percentage = (((succ + fld : Nat) : ℚ) / ((total : Nat) : ℚ)) * 100

/-- The observable invariant claimed for every Job snapshot: processed =
succeeded + failed; the progress percentage lies in `[0, 100]`; it equals
`100 * processed / total` once the total has been recorded (the update that
also records the start timestamp) and is `0` before that. -/
def JobInv (j : ScrapingJob) : Prop :=
  j.urls_processed = j.items_scraped + j.urls_failed ∧
  0 ≤ j.progress_percentage ∧
  j.progress_percentage ≤ 100 ∧
  (j.started_at = true →
    j.progress_percentage = 100 * (j.urls_processed : ℚ) / (j.total_urls : ℚ)) ∧
  (j.started_at = false → j.progress_percentage = 0)

instance (total succ fld : Nat) (j : ScrapingJob) :
    Decidable (JobShape total succ fld j) := by
  unfold JobShape
  infer_instance

instance (j : ScrapingJob) : Decidable (JobInv j) := by
  unfold JobInv
  infer_instance

/-- A job row of the loop shape satisfies the claimed invariant as long as
no more items have been counted than the recorded total. -/
theorem jobShape_inv (total succ fld : Nat) (j : ScrapingJob)
    (hs : JobShape total succ fld j) (hb : succ + fld ≤ total) : JobInv j := by
  obtain ⟨h1, h2, h3, h4, h5, h6⟩ := hs
  refine ⟨by rw [h5, h3, h4], ?_, ?_, ?_, ?_⟩
  · rw [h6]
    positivity
  · rw [h6]
    rcases Nat.eq_zero_or_pos total with h0 | h0
    · have hz : succ + fld = 0 := by omega
      rw [hz, h0]
      norm_num
    · have ht : (0 : ℚ) < ((total : Nat) : ℚ) := by exact_mod_cast h0
      have hle : (((succ + fld : Nat)) : ℚ) ≤ ((total : Nat) : ℚ) := by
        exact_mod_cast hb
      have hq : (((succ + fld : Nat)) : ℚ) / ((total : Nat) : ℚ) ≤ 1 :=
        (div_le_one ht).mpr hle
      calc (((succ + fld : Nat)) : ℚ) / ((total : Nat) : ℚ) * 100
          ≤ 1 * 100 := by
            apply mul_le_mul_of_nonneg_right hq
            norm_num
        _ = 100 := by norm_num
  · intro _
    rw [h6, h5, h2]
    ring
  · intro hf
    rw [h1] at hf
    exact absurd hf (by simp)

/-- `handleResult` written as a single `updateJob` step. -/
theorem handleResult_st (env : Env) (total : Nat) (acc : LoopAcc)
    (r : ScrapeResult) :
    (handleResult env total acc r).st
      = updateJob env (if r.success then saveContent env acc.st r else acc.st)
          (fun j =>
            { j with
              urls_processed :=
                (handleResult env total acc r).succ
                  + (handleResult env total acc r).fld
              urls_failed := (handleResult env total acc r).fld
              progress_percentage :=
                ((((handleResult env total acc r).succ
                    + (handleResult env total acc r).fld : Nat) : ℚ)
                  / ((total : Nat) : ℚ)) * 100
              items_scraped := (handleResult env total acc r).succ }) := rfl

/-- On a fault-free job store, one item step keeps the loop shape, counts
exactly one more processed item, and appends the new row to the trace. -/
theorem handleResult_step (env : Env) (total : Nat)
    (hjf : ∀ n, env.jobFault n = false) (acc : LoopAcc) (r : ScrapeResult)
    (h1 : JobShape total acc.succ acc.fld acc.st.job) :
    JobShape total (handleResult env total acc r).succ
        (handleResult env total acc r).fld
        (handleResult env total acc r).st.job ∧
    (handleResult env total acc r).succ + (handleResult env total acc r).fld
        = acc.succ + acc.fld + 1 ∧
    (handleResult env total acc r).st.trace
        = acc.st.trace ++ [(handleResult env total acc r).st.job] := by
  have hstj : (if r.success then saveContent env acc.st r else acc.st).job
      = acc.st.job := by
    cases r.success <;> simp [saveContent_job]
  have hstt : (if r.success then saveContent env acc.st r else acc.st).trace
      = acc.st.trace := by
    cases r.success <;> simp [saveContent_trace]
  obtain ⟨ha, hb, _, _, _, _⟩ := h1
  refine ⟨?_, ?_, ?_⟩
  · rw [handleResult_st, updateJob_job _ _ _ (hjf _), hstj]
    exact ⟨ha, hb, rfl, rfl, rfl, rfl⟩
  · rw [handleResult_succ, handleResult_fld]
    cases r.success <;> simp <;> omega
  · rw [handleResult_st, updateJob_trace, hstt]

/-- Invariant of the item loop on a fault-free job store: the loop shape is
maintained, the processed count never exceeds the number of items, and every
job row ever written satisfies the claimed invariant. -/
theorem loop_shape (env : Env) (total : Nat)
    (hjf : ∀ n, env.jobFault n = false) (rs : List ScrapeResult) :
    ∀ acc : LoopAcc,
      JobShape total acc.succ acc.fld acc.st.job →
      acc.succ + acc.fld + rs.length ≤ total →
      (∀ j ∈ acc.st.trace, JobInv j) →
      JobShape total (rs.foldl (handleResult env total) acc).succ
          (rs.foldl (handleResult env total) acc).fld
          (rs.foldl (handleResult env total) acc).st.job ∧
      (rs.foldl (handleResult env total) acc).succ
          + (rs.foldl (handleResult env total) acc).fld ≤ total ∧
      (∀ j ∈ (rs.foldl (handleResult env total) acc).st.trace, JobInv j) := by
  induction rs with
  | nil =>
    intro acc h1 h2 h3
    exact ⟨h1, by simpa using h2, h3⟩
  | cons r rs ih =>
    intro acc h1 h2 h3
    simp only [List.length_cons] at h2
    obtain ⟨hs, hc, ht⟩ := handleResult_step env total hjf acc r h1
    have hb1 : (handleResult env total acc r).succ
        + (handleResult env total acc r).fld ≤ total := by omega
    simp only [List.foldl_cons]
    apply ih
    · exact hs
    · omega
    · intro j hj
      rw [ht] at hj
      rcases List.mem_append.mp hj with hj | hj
      · exact h3 j hj
      · rcases List.mem_singleton.mp hj with rfl
        exact jobShape_inv total _ _ _ hs hb1

/-! ## Characterising a full `scrapeDocEntries` run -/

/-- The final run state, with the batch loop flattened to the item loop. -/
theorem scrapeDocEntries_st (env : Env) (slug : String) (s0 : RunState)
    (entries : List DevDocsEntry) (hk : 0 < env.concurrency) :
    (scrapeDocEntries env slug s0 entries).1 =
      updateJob env
        ((entries.map (scrapePage env slug)).foldl
            (handleResult env entries.length)
            ⟨updateJob env s0
                (fun j =>
                  { j with total_urls := entries.length, status := .running,
                           started_at := true }), 0, 0⟩).st
        (fun j => { j with status := .completed, completed_at := true }) := by
  simp only [scrapeDocEntries]
  rw [scrapeLoop_flatten env slug entries.length entries hk]

/-- The in-memory counts returned by a run: one success per entry whose page
fetch succeeded, one failure per entry whose page fetch failed, and the
manifest length as the total. -/
theorem scrapeDocEntries_counts (env : Env) (slug : String) (s0 : RunState)
    (entries : List DevDocsEntry) (hk : 0 < env.concurrency) :
    (scrapeDocEntries env slug s0 entries).2.1
        = entries.countP (fun e => fetchOk env e) ∧
    (scrapeDocEntries env slug s0 entries).2.2.1
        = entries.countP (fun e => !fetchOk env e) ∧
    (scrapeDocEntries env slug s0 entries).2.2.2 = entries.length := by
  simp only [scrapeDocEntries]
  rw [scrapeLoop_flatten env slug entries.length entries hk]
  obtain ⟨h1, h2⟩ := loop_counts env entries.length
    (entries.map (scrapePage env slug))
    ⟨updateJob env s0
        (fun j =>
          { j with total_urls := entries.length, status := .running,
                   started_at := true }), 0, 0⟩
  refine ⟨?_, ?_, by trivial⟩
  · rw [h1]
    simp only [List.countP_map, Nat.zero_add]
    apply List.countP_congr
    intro e _
    simp [Function.comp, scrapePage_success]
  · rw [h2]
    simp only [List.countP_map, Nat.zero_add]
    apply List.countP_congr
    intro e _
    simp [Function.comp, scrapePage_success]

/-- On a successful manifest fetch, `scrapeDoc` returns the run outcome.  -/
theorem scrapeDoc_ok (env : Env) (slug : String) (s0 : RunState)
    (entries : List DevDocsEntry) (hm : env.manifest = .ok entries) :
    scrapeDoc env slug s0 = .ok (scrapeDocEntries env slug s0 entries) := by
  unfold scrapeDoc
  rw [hm]

/-- Every job row observable during a fault-free run — the pending row at
creation, the `running` row, every per-item progress row, and the final
`completed` row — satisfies the claimed invariant. -/
theorem scrapeDocEntries_invariant (env : Env) (slug : String)
    (entries : List DevDocsEntry) (hk : 0 < env.concurrency)
    (hjf : ∀ n, env.jobFault n = false) :
    ∀ j ∈ observedJobs initState (scrapeDocEntries env slug initState entries).1,
      JobInv j := by
  intro j hj
  rw [scrapeDocEntries_st env slug initState entries hk] at hj
  simp only [observedJobs] at hj
  rcases List.mem_cons.mp hj with hj0 | hj1
  · subst hj0
    decide
  · -- facts about the state after the `running` update
    have hjob1 : (updateJob env initState
        (fun j => { j with total_urls := entries.length, status := .running,
                           started_at := true })).job
        = { newJob with total_urls := entries.length, status := .running,
                        started_at := true } :=
      updateJob_job env initState _ (hjf _)
    have hshape1 : JobShape entries.length 0 0
        (updateJob env initState
          (fun j => { j with total_urls := entries.length, status := .running,
                             started_at := true })).job := by
      rw [hjob1]
      refine ⟨rfl, rfl, rfl, rfl, rfl, ?_⟩
      show (0 : ℚ) = (((0 + 0 : Nat)) : ℚ) / ((entries.length : Nat) : ℚ) * 100
      norm_num
    have htrace1 : (updateJob env initState
        (fun j => { j with total_urls := entries.length, status := .running,
                           started_at := true })).trace
        = [{ newJob with total_urls := entries.length, status := .running,
                         started_at := true }] := by
      rw [updateJob_trace, hjob1]
      rfl
    -- the loop invariant across all items
    obtain ⟨hshapeF, hbF, htrF⟩ := loop_shape env entries.length hjf
      (entries.map (scrapePage env slug))
      ⟨updateJob env initState
        (fun j => { j with total_urls := entries.length, status := .running,
                           started_at := true }), 0, 0⟩
      hshape1
      (by simp)
      (by
        rw [htrace1]
        intro j hj
        rcases List.mem_singleton.mp hj with rfl
        exact jobShape_inv entries.length 0 0 _ (hjob1 ▸ hshape1) (by omega))
    -- the final `completed` update keeps the shape
    have hshape2 : JobShape entries.length
        ((entries.map (scrapePage env slug)).foldl
            (handleResult env entries.length)
            ⟨updateJob env initState
              (fun j => { j with total_urls := entries.length, status := .running,
                                 started_at := true }), 0, 0⟩).succ
        ((entries.map (scrapePage env slug)).foldl
            (handleResult env entries.length)
            ⟨updateJob env initState
              (fun j => { j with total_urls := entries.length, status := .running,
                                 started_at := true }), 0, 0⟩).fld
        (updateJob env
          ((entries.map (scrapePage env slug)).foldl
              (handleResult env entries.length)
              ⟨updateJob env initState
                (fun j => { j with total_urls := entries.length, status := .running,
                                   started_at := true }), 0, 0⟩).st
          (fun j => { j with status := .completed, completed_at := true })).job := by
      obtain ⟨a, b, c, d, e, f⟩ := hshapeF
      rw [updateJob_job _ _ _ (hjf _)]
      exact ⟨a, b, c, d, e, f⟩
    rw [updateJob_trace] at hj1
    rcases List.mem_append.mp hj1 with hj2 | hj2
    · exact htrF j hj2
    · rcases List.mem_singleton.mp hj2 with rfl
      exact jobShape_inv entries.length _ _ _ hshape2 hbF

/-! ## Concrete demonstration environment (used by witnesses) -/

/-- A one-page manifest entry. -/
def demoEntry : DevDocsEntry :=
  { name := "Guide/Intro", path := "guide/intro", type := "guide" }

/-- A well-formed page with a content region, a heading, a paragraph and a
code block. -/
def demoPage : PageMarkup :=
  { contentRegion := some
      { text := "Alpha beta gamma alpha words appear here"
        headings := [{ level := 1, text := "Intro" }]
        paragraphs := ["Alpha beta gamma alpha words appear here"]
        codeBlocks := [{ classAttr := some "language-js", text := "console.log(1)" }] } }

/-- A fault-free environment over the one-page manifest; the digest function
is instantiated with the identity (the claims under test depend only on the
digest being a function of the body text). -/
def demoEnv : Env :=
  { hash := fun s => s
    manifest := .ok [demoEntry]
    fetchPage := fun _ => .ok demoPage
    sourceLookup := some "src-1"
    concurrency := 3
    jobFault := fun _ => false
    saveFault := fun _ => false }

/-! ## C1: the Job progress invariant -/

/-- **C1.**  For every Job observed at any point during a crawl run driven
by `scrapeDoc` (creation, the `running` update, every per-item progress
update, and completion, on a job store that accepts the writes): the
recorded `urls_processed` equals succeeded (`items_scraped`) plus failed
(`urls_failed`); `progress_percentage` equals `100 * processed / total`
once the total has been set, lies in `[0, 100]`, and is `0` until the total
is set. -/
theorem claim_job_progress_invariant (env : Env) (slug : String)
    (entries : List DevDocsEntry) (s : RunState) (succ fld tot : Nat)
    (hm : env.manifest = .ok entries)
    (hk : 0 < env.concurrency)
    (hjf : ∀ n, env.jobFault n = false)
    (hrun : scrapeDoc env slug initState = .ok (s, succ, fld, tot)) :
    ∀ j ∈ observedJobs initState s, JobInv j := by
  have hok := scrapeDoc_ok env slug initState entries hm
  rw [hrun] at hok
  have hs : s = (scrapeDocEntries env slug initState entries).1 := by
    have := Except.ok.inj hok
    rw [← this]
  rw [hs]
  exact scrapeDocEntries_invariant env slug entries hk hjf

/-- Witness for C1 at the concrete one-page environment. -/
theorem claim_job_progress_invariant_witness :
    0 < demoEnv.concurrency ∧ JobInv newJob :=
  ⟨by decide,
    claim_job_progress_invariant demoEnv "javascript" [demoEntry]
      (scrapeDocEntries demoEnv "javascript" initState [demoEntry]).1
      (scrapeDocEntries demoEnv "javascript" initState [demoEntry]).2.1
      (scrapeDocEntries demoEnv "javascript" initState [demoEntry]).2.2.1
      (scrapeDocEntries demoEnv "javascript" initState [demoEntry]).2.2.2
      rfl (by decide) (fun _ => rfl) rfl
      newJob (List.mem_cons_self _ _)⟩

/-! ## C4: the batch partition -/

/-- **C4.**  For every list of `n` work items and every concurrency
`k > 0`, the batch loop issues exactly `⌈n / k⌉ = (n + k - 1) / k`
consecutive groups, each of size `k` except possibly the last, and the
groups concatenated in order are exactly the item list (so the last group
holds precisely the remaining items).  Groups are consumed strictly one
after another: `scrapeDocEntries` folds the groups left to right, awaiting
each group in full before the next (`foldl_chunksOf` states this
sequentiality: folding group-by-group is folding the items in order). -/
theorem claim_batch_partition {α : Type} (k : Nat) (hk : 0 < k) (l : List α) :
    (chunksOf k l).length = (l.length + k - 1) / k ∧
    (∀ c ∈ (chunksOf k l).dropLast, c.length = k) ∧
    (chunksOf k l).flatten = l :=
  ⟨chunksOf_length k hk l, chunksOf_sizes k hk l, chunksOf_join k hk l⟩

/-- Witness for C4: 5 items at concurrency 2 go out in 3 batches. -/
theorem claim_batch_partition_witness :
    0 < 2 ∧ (chunksOf 2 [0, 1, 2, 3, 4] : List (List Nat)).length = (5 + 2 - 1) / 2 :=
  ⟨by decide, (claim_batch_partition 2 (by decide) [0, 1, 2, 3, 4]).1⟩

/-! ## C2: manifest failure fails the run before any work -/

/-- **C2.**  When the manifest (index) fetch fails, the Job goes directly
from `pending` to `failed` with a recorded `ManifestUnavailable` message,
`total` stays `0`, and no per-item work is attempted (no `saveContent`
invocation, no content-store row, no intermediate `running` row: the
observed job states are exactly the pending row and the failed row). -/
theorem claim_manifest_failure (env : Env) (slug msg : String)
    (hm : env.manifest = .error msg)
    (hjf : env.jobFault 0 = false) :
    (runCrawl env slug).job.status = .failed ∧
    (runCrawl env slug).job.error_message
        = some ("ManifestUnavailable: " ++ msg) ∧
    (runCrawl env slug).job.total_urls = 0 ∧
    (runCrawl env slug).job.urls_processed = 0 ∧
    (runCrawl env slug).saveOps = 0 ∧
    (runCrawl env slug).store = [] ∧
    observedJobs initState (runCrawl env slug)
        = [newJob, (runCrawl env slug).job] ∧
    newJob.status = .pending := by
  have h1 : runCrawl env slug =
      updateJob env initState
        (fun j => { j with status := .failed,
                           error_message :=
                             some ("ManifestUnavailable: " ++ msg) }) := by
    unfold runCrawl scrapeDoc
    rw [hm]
  have h2 := updateJob_job env initState
      (fun j => { j with status := .failed,
                         error_message :=
                           some ("ManifestUnavailable: " ++ msg) }) hjf
  rw [h1]
  refine ⟨?_, ?_, ?_, ?_, ?_, ?_, ?_, rfl⟩
  · rw [h2]
  · rw [h2]
  · rw [h2]
    rfl
  · rw [h2]
    rfl
  · rw [updateJob_saveOps]
    rfl
  · rw [updateJob_store]
    rfl
  · simp only [observedJobs, updateJob_trace, h2]
    rfl

/-- An environment whose manifest fetch fails with an HTTP 500. -/
def failEnv : Env := { demoEnv with manifest := .error "HTTP 500" }

/-- Witness for C2 at the failing-manifest environment. -/
theorem claim_manifest_failure_witness :
    (runCrawl failEnv "javascript").job.status = .failed ∧
    (runCrawl failEnv "javascript").job.error_message
        = some ("ManifestUnavailable: " ++ "HTTP 500") := by
  have h := claim_manifest_failure failEnv "javascript" "HTTP 500" rfl rfl
  exact ⟨h.1, h.2.1⟩

/-! ## C5 and C10: failure isolation and best-effort persistence -/

/-- Every entry either fetches or does not: the two counts sum to the
manifest length. -/
theorem countP_fetch_split (env : Env) (entries : List DevDocsEntry) :
    entries.countP (fun e => fetchOk env e)
      + entries.countP (fun e => !fetchOk env e) = entries.length := by
  induction entries with
  | nil => simp
  | cons a t ih =>
    by_cases h : fetchOk env a <;> simp [List.countP_cons, h] <;> omega

/-- **C5.**  When exactly one item's page fetch fails, the run still
produces an outcome for every item: the returned counts are `n - 1`
successes, exactly `1` failure, and total `n`, and the job still reaches
`completed` status rather than aborting. -/
theorem claim_failure_isolation (env : Env) (slug : String)
    (entries : List DevDocsEntry)
    (hm : env.manifest = .ok entries)
    (hk : 0 < env.concurrency)
    (hjf : ∀ n, env.jobFault n = false)
    (hone : entries.countP (fun e => !fetchOk env e) = 1) :
    scrapeDoc env slug initState
      = .ok ((scrapeDocEntries env slug initState entries).1,
             entries.length - 1, 1, entries.length) ∧
    (scrapeDocEntries env slug initState entries).1.job.status = .completed := by
  obtain ⟨c1, c2, c3⟩ := scrapeDocEntries_counts env slug initState entries hk
  have hsplit := countP_fetch_split env entries
  have hsucc : (scrapeDocEntries env slug initState entries).2.1
      = entries.length - 1 := by
    rw [c1]
    omega
  have hfld : (scrapeDocEntries env slug initState entries).2.2.1 = 1 := by
    rw [c2, hone]
  constructor
  · rw [scrapeDoc_ok env slug initState entries hm]
    rw [← hsucc, ← hfld, ← c3]
  · rw [scrapeDocEntries_st env slug initState entries hk,
        updateJob_job _ _ _ (hjf _)]

/-- A two-page manifest whose second page fetch times out. -/
def isoEntryA : DevDocsEntry := { name := "A", path := "a", type := "t" }

def isoEntryB : DevDocsEntry := { name := "B", path := "b", type := "t" }

def isoEnv : Env :=
  { demoEnv with
    manifest := .ok [isoEntryA, isoEntryB]
    fetchPage := fun p => if p = "b" then .error "timeout" else .ok demoPage }

/-- Witness for C5: one of two fetches fails, the run still completes. -/
theorem claim_failure_isolation_witness :
    (scrapeDocEntries isoEnv "js" initState [isoEntryA, isoEntryB]).1.job.status
      = .completed :=
  (claim_failure_isolation isoEnv "js" [isoEntryA, isoEntryB]
    rfl (by decide) (fun _ => rfl) (by decide)).2

/-- **C10.**  `updateJob` and `saveContent` catch store errors internally,
so for arbitrary job-store and content-store fault schedules `scrapeDoc`
still returns normally with its in-memory success/failed/total counts —
which depend only on the fetch outcomes, not on the fault schedules — and,
whenever the job store accepts the writes, the run ends with the job row
marked `completed`. -/
theorem claim_persistence_best_effort (env : Env) (slug : String)
    (entries : List DevDocsEntry)
    (hm : env.manifest = .ok entries)
    (hk : 0 < env.concurrency) :
    scrapeDoc env slug initState
      = .ok ((scrapeDocEntries env slug initState entries).1,
             entries.countP (fun e => fetchOk env e),
             entries.countP (fun e => !fetchOk env e),
             entries.length) ∧
    ((∀ n, env.jobFault n = false) →
      (scrapeDocEntries env slug initState entries).1.job.status
        = .completed) := by
  obtain ⟨c1, c2, c3⟩ := scrapeDocEntries_counts env slug initState entries hk
  constructor
  · rw [scrapeDoc_ok env slug initState entries hm]
    rw [← c1, ← c2, ← c3]
  · intro hjf
    rw [scrapeDocEntries_st env slug initState entries hk,
        updateJob_job _ _ _ (hjf _)]

/-- An environment in which every job-store and content-store operation
throws. -/
def outageEnv : Env :=
  { demoEnv with jobFault := fun _ => true, saveFault := fun _ => true }

/-- Witness for C10: under a full persistence outage the run still returns
its counts. -/
theorem claim_persistence_best_effort_witness :
    scrapeDoc outageEnv "javascript" initState
      = .ok ((scrapeDocEntries outageEnv "javascript" initState [demoEntry]).1,
             ([demoEntry] : List DevDocsEntry).countP
               (fun e => fetchOk outageEnv e),
             ([demoEntry] : List DevDocsEntry).countP
               (fun e => !fetchOk outageEnv e),
             ([demoEntry] : List DevDocsEntry).length) :=
  (claim_persistence_best_effort outageEnv "javascript" [demoEntry]
    rfl (by decide)).1

/-! ## C7: the dedup decision -/

/-- **C7.**  For a fetched item being saved (source id resolved, store
reachable): if no prior row exists for the URL the record is inserted
(`New`); if the stored fingerprint equals the newly computed fingerprint
the save is skipped entirely — no write (`Unchanged`); otherwise the row is
updated in place (`Changed`).  The fingerprint is the digest of the
normalized body text alone: any two results with the same `content` have
the same fingerprint regardless of their code snippets, markdown, title or
counts. -/
theorem claim_dedup_decision (env : Env)
    (store : List (String × ContentData)) (sid : String) (r : ScrapeResult)
    (d : ContentData) :
    (storeLookup store r.url = none →
      saveStep env store (some sid) r
        = (storeInsert store r.url (mkContentData sid env.hash r), some sid)) ∧
    (storeLookup store r.url = some d →
      d.content_hash = contentFingerprint env.hash r →
      saveStep env store (some sid) r = (store, some sid)) ∧
    (storeLookup store r.url = some d →
      d.content_hash ≠ contentFingerprint env.hash r →
      saveStep env store (some sid) r
        = (storeUpdate store r.url (mkContentData sid env.hash r), some sid)) ∧
    (∀ r₂ : ScrapeResult, r.content = r₂.content →
      contentFingerprint env.hash r = contentFingerprint env.hash r₂) := by
  refine ⟨?_, ?_, ?_, ?_⟩
  · intro hnone
    unfold saveStep
    simp [hnone]
  · intro hsome heq
    unfold saveStep
    simp [hsome, heq]
  · intro hsome hne
    unfold saveStep
    simp [hsome, hne]
  · intro r₂ hc
    unfold contentFingerprint
    rw [hc]

/-- The record extracted from the demonstration page, and its stored row. -/
def demoResult : ScrapeResult := extractRecord "js" demoEntry demoPage

def demoStored : ContentData := mkContentData "src-1" (fun s => s) demoResult

/-- Witness for C7: an exact fingerprint match is skipped with no write. -/
theorem claim_dedup_decision_witness :
    saveStep demoEnv [(demoResult.url, demoStored)] (some "src-1") demoResult
      = ([(demoResult.url, demoStored)], some "src-1") := by
  have h := (claim_dedup_decision demoEnv [(demoResult.url, demoStored)]
    "src-1" demoResult demoStored).2.1
  apply h
  · simp [storeLookup]
  · rfl

/-! ## C8: extraction is deterministic -/

/-- **C8.**  Extraction is deterministic: two runs over identical raw markup
and an identical work item produce identical `ScrapeResult` records (body
text, code snippets, keywords, topics, counts, markdown) and in particular
identical content fingerprints, for any digest function.  (`extractRecord`
is a pure function of the parsed page and the work item: it reads no
mutable state and consults no oracle.) -/
theorem claim_extraction_deterministic (hash : String → String)
    (slug : String) (entry : DevDocsEntry) (p₁ p₂ : PageMarkup)
    (h : p₁ = p₂) :
    extractRecord slug entry p₁ = extractRecord slug entry p₂ ∧
    contentFingerprint hash (extractRecord slug entry p₁)
      = contentFingerprint hash (extractRecord slug entry p₂) := by
  subst h
  exact ⟨rfl, rfl⟩

/-- Witness for C8 at the demonstration page. -/
theorem claim_extraction_deterministic_witness :
    contentFingerprint (fun s => s) (extractRecord "js" demoEntry demoPage)
      = contentFingerprint (fun s => s) (extractRecord "js" demoEntry demoPage) :=
  (claim_extraction_deterministic (fun s => s) "js" demoEntry demoPage
    demoPage rfl).2

/-! ## C9: extraction never fails -/

/-- A page in which the `._content` selector matches nothing — the model of
arbitrarily malformed markup. -/
def emptyPage : PageMarkup := { contentRegion := none }

/-- **C9.**  Extraction is total and never yields a failure outcome: for
every parsed page the record has `success = true`, and when the expected
content region is absent (malformed or unexpected markup) the body is empty
and the word count is `0` — still a success, not a failure. -/
theorem claim_extraction_total (slug : String) (entry : DevDocsEntry)
    (p : PageMarkup) :
    (extractRecord slug entry p).success = true ∧
    (p.contentRegion = none →
      (extractRecord slug entry p).content = "" ∧
      (extractRecord slug entry p).wordCount = 0) := by
  constructor
  · rfl
  · intro hnone
    have hrt : regionText p = "" := by
      unfold regionText
      rw [hnone]
    constructor
    · show jsTrim (regionText p) = ""
      rw [hrt]
      decide
    · show countWords (jsTrim (regionText p)) = 0
      rw [hrt]
      decide

/-- Witness for C9 at the region-less page. -/
theorem claim_extraction_total_witness :
    (extractRecord "js" demoEntry emptyPage).content = "" ∧
    (extractRecord "js" demoEntry emptyPage).wordCount = 0 :=
  (claim_extraction_total "js" demoEntry emptyPage).2 rfl

/-! ## C3: the dedup counters are never written by the scraper -/

/-- One item step never touches the job's dedup counters: the per-item
update writes only `urls_processed`, `urls_failed`, `progress_percentage`
and `items_scraped`. -/
theorem handleResult_dedup (env : Env) (total : Nat) (acc : LoopAcc)
    (r : ScrapeResult) :
    (handleResult env total acc r).st.job.items_new
        = acc.st.job.items_new ∧
    (handleResult env total acc r).st.job.items_updated
        = acc.st.job.items_updated ∧
    (handleResult env total acc r).st.job.items_unchanged
        = acc.st.job.items_unchanged := by
  have hstj : (if r.success then saveContent env acc.st r else acc.st).job
      = acc.st.job := by
    cases r.success <;> simp [saveContent_job]
  rw [handleResult_st]
  rcases updateJob_job_cases env
      (if r.success then saveContent env acc.st r else acc.st) _ with h | h <;>
    rw [h, hstj] <;> exact ⟨rfl, rfl, rfl⟩

theorem loop_dedup_counters (env : Env) (total : Nat)
    (rs : List ScrapeResult) :
    ∀ acc : LoopAcc,
      (rs.foldl (handleResult env total) acc).st.job.items_new
          = acc.st.job.items_new ∧
      (rs.foldl (handleResult env total) acc).st.job.items_updated
          = acc.st.job.items_updated ∧
      (rs.foldl (handleResult env total) acc).st.job.items_unchanged
          = acc.st.job.items_unchanged := by
  induction rs with
  | nil => intro acc; exact ⟨rfl, rfl, rfl⟩
  | cons r rs ih =>
    intro acc
    simp only [List.foldl_cons]
    obtain ⟨a1, a2, a3⟩ := handleResult_dedup env total acc r
    obtain ⟨b1, b2, b3⟩ := ih (handleResult env total acc r)
    exact ⟨by rw [b1, a1], by rw [b2, a2], by rw [b3, a3]⟩

/-- A whole run never changes `items_new` / `items_updated` /
`items_unchanged`: no update of `scrapeDoc` mentions them. -/
theorem scrapeDocEntries_dedup (env : Env) (slug : String) (s0 : RunState)
    (entries : List DevDocsEntry) (hk : 0 < env.concurrency) :
    (scrapeDocEntries env slug s0 entries).1.job.items_new
        = s0.job.items_new ∧
    (scrapeDocEntries env slug s0 entries).1.job.items_updated
        = s0.job.items_updated ∧
    (scrapeDocEntries env slug s0 entries).1.job.items_unchanged
        = s0.job.items_unchanged := by
  rw [scrapeDocEntries_st env slug s0 entries hk]
  obtain ⟨l1, l2, l3⟩ := loop_dedup_counters env entries.length
    (entries.map (scrapePage env slug))
    ⟨updateJob env s0
      (fun j => { j with total_urls := entries.length, status := .running,
                         started_at := true }), 0, 0⟩
  have hfirst : (updateJob env s0
      (fun j => { j with total_urls := entries.length, status := .running,
                         started_at := true })).job.items_new
        = s0.job.items_new ∧
      (updateJob env s0
        (fun j => { j with total_urls := entries.length, status := .running,
                           started_at := true })).job.items_updated
        = s0.job.items_updated ∧
      (updateJob env s0
        (fun j => { j with total_urls := entries.length, status := .running,
                           started_at := true })).job.items_unchanged
        = s0.job.items_unchanged := by
    rcases updateJob_job_cases env s0
        (fun j => { j with total_urls := entries.length, status := .running,
                           started_at := true }) with h | h <;>
      rw [h] <;> exact ⟨rfl, rfl, rfl⟩
  obtain ⟨f1, f2, f3⟩ := hfirst
  rcases updateJob_job_cases env
      ((entries.map (scrapePage env slug)).foldl
        (handleResult env entries.length)
        ⟨updateJob env s0
          (fun j => { j with total_urls := entries.length, status := .running,
                             started_at := true }), 0, 0⟩).st
      (fun j => { j with status := .completed, completed_at := true })
      with h | h <;>
    rw [h] <;>
    exact ⟨by rw [l1, f1], by rw [l2, f2], by rw [l3, f3]⟩

/-- **C3 (amended).**  Running the crawl a second time over the identical
manifest and unchanged pages yields a Job with `items_new = 0` and
`items_changed = 0`, but `items_unchanged` is also `0`, not `total`: the
scraper never writes any of the three dedup counters on any run (the
per-URL unchanged-skip happens in the content store only), so they keep the
zero values the Job was created with. -/
theorem claim_second_run_dedup_counters (env : Env) (slug : String)
    (entries : List DevDocsEntry) (store1 : List (String × ContentData))
    (s : RunState) (succ fld tot : Nat)
    (hm : env.manifest = .ok entries)
    (hk : 0 < env.concurrency)
    (hrun : scrapeDoc env slug (initStateWith store1) = .ok (s, succ, fld, tot)) :
    s.job.items_new = 0 ∧ s.job.items_updated = 0 ∧
    s.job.items_unchanged = 0 := by
  have hok := scrapeDoc_ok env slug (initStateWith store1) entries hm
  rw [hrun] at hok
  have hs : s = (scrapeDocEntries env slug (initStateWith store1) entries).1 := by
    have h := Except.ok.inj hok
    rw [← h]
  rw [hs]
  obtain ⟨d1, d2, d3⟩ :=
    scrapeDocEntries_dedup env slug (initStateWith store1) entries hk
  exact ⟨by rw [d1]; rfl, by rw [d2]; rfl, by rw [d3]; rfl⟩

/-- The first crawl run over the demonstration environment. -/
def cexRun1 : Except String (RunState × Nat × Nat × Nat) :=
  scrapeDoc demoEnv "js" initState

/-- The content store left behind by the first run. -/
def cexStore1 : List (String × ContentData) :=
  match cexRun1 with
  | .ok (s, _, _, _) => s.store
  | .error _ => []

/-- The second crawl run over the identical manifest and pages, starting
from the first run's content store. -/
def cexRun2 : Except String (RunState × Nat × Nat × Nat) :=
  scrapeDoc demoEnv "js" (initStateWith cexStore1)

def cexRun2ItemsUnchanged : Nat :=
  match cexRun2 with
  | .ok (s, _, _, _) => s.job.items_unchanged
  | .error _ => 999

def cexRun2Total : Nat :=
  match cexRun2 with
  | .ok (_, _, _, t) => t
  | .error _ => 999

/-- **C3 counterexample.**  On the second identical run over the one-page
manifest the recorded `items_unchanged` is `0`, not `total = 1`, refuting
the claim as stated. -/
theorem claim_second_run_dedup_counters_counterexample :
    cexRun2ItemsUnchanged = 0 ∧ cexRun2Total = 1 ∧
    cexRun2ItemsUnchanged ≠ cexRun2Total := by
  refine ⟨?_, ?_, ?_⟩ <;> decide

/-- Witness for the amended C3 at the demonstration second run. -/
theorem claim_second_run_dedup_counters_witness :
    (scrapeDocEntries demoEnv "js" (initStateWith cexStore1)
      [demoEntry]).1.job.items_unchanged = 0 :=
  (claim_second_run_dedup_counters demoEnv "js" [demoEntry] cexStore1
    (scrapeDocEntries demoEnv "js" (initStateWith cexStore1) [demoEntry]).1
    (scrapeDocEntries demoEnv "js" (initStateWith cexStore1) [demoEntry]).2.1
    (scrapeDocEntries demoEnv "js" (initStateWith cexStore1) [demoEntry]).2.2.1
    (scrapeDocEntries demoEnv "js" (initStateWith cexStore1) [demoEntry]).2.2.2
    rfl (by decide) rfl).2.2

/-! ## C6: a failed persistence write is still counted as a success -/

/-- When the content-store transaction throws, `saveContent` swallows the
error and leaves the store untouched. -/
theorem handleResult_store_fault (env : Env) (total : Nat)
    (hsf : ∀ n, env.saveFault n = true) (acc : LoopAcc) (r : ScrapeResult) :
    (handleResult env total acc r).st.store = acc.st.store := by
  rw [handleResult_st, updateJob_store]
  cases hr : r.success
  · rfl
  · show (saveContent env acc.st r).store = acc.st.store
    unfold saveContent
    simp [hsf]

theorem loop_store_fault (env : Env) (total : Nat)
    (hsf : ∀ n, env.saveFault n = true) (rs : List ScrapeResult) :
    ∀ acc : LoopAcc,
      (rs.foldl (handleResult env total) acc).st.store = acc.st.store := by
  induction rs with
  | nil => intro acc; rfl
  | cons r rs ih =>
    intro acc
    simp only [List.foldl_cons]
    rw [ih (handleResult env total acc r),
        handleResult_store_fault env total hsf acc r]

/-- Under a total content-store outage a run writes nothing. -/
theorem scrapeDocEntries_store_fault (env : Env) (slug : String)
    (s0 : RunState) (entries : List DevDocsEntry)
    (hk : 0 < env.concurrency) (hsf : ∀ n, env.saveFault n = true) :
    (scrapeDocEntries env slug s0 entries).1.store = s0.store := by
  rw [scrapeDocEntries_st env slug s0 entries hk, updateJob_store,
      loop_store_fault env entries.length hsf
        (entries.map (scrapePage env slug))
        ⟨updateJob env s0
          (fun j => { j with total_urls := entries.length, status := .running,
                             started_at := true }), 0, 0⟩,
      updateJob_store]

/-- **C6 (amended).**  An item whose persistence write fails is *not*
recorded as `Failed`: `saveContent` catches the store error internally, so
`successCount` is still incremented for the item and `failedCount` counts
only fetch failures.  Under a total content-store outage with all pages
fetching, the run returns `n` successes, `0` failures, stores nothing, and
still completes (on a job store that accepts the writes). -/
theorem claim_save_failure_counted_success (env : Env) (slug : String)
    (entries : List DevDocsEntry)
    (hm : env.manifest = .ok entries)
    (hk : 0 < env.concurrency)
    (hsf : ∀ n, env.saveFault n = true)
    (hfo : ∀ e ∈ entries, fetchOk env e = true) :
    scrapeDoc env slug initState
      = .ok ((scrapeDocEntries env slug initState entries).1,
             entries.length, 0, entries.length) ∧
    (scrapeDocEntries env slug initState entries).1.store = [] ∧
    ((∀ n, env.jobFault n = false) →
      (scrapeDocEntries env slug initState entries).1.job.status
        = .completed) := by
  obtain ⟨c1, c2, c3⟩ := scrapeDocEntries_counts env slug initState entries hk
  have hsucc : (scrapeDocEntries env slug initState entries).2.1
      = entries.length := by
    rw [c1]
    exact List.countP_eq_length.mpr hfo
  have hfld : (scrapeDocEntries env slug initState entries).2.2.1 = 0 := by
    rw [c2]
    apply List.countP_eq_zero.mpr
    intro e he
    rw [hfo e he]
    simp
  refine ⟨?_, ?_, ?_⟩
  · have hX : scrapeDocEntries env slug initState entries
        = ((scrapeDocEntries env slug initState entries).1,
           entries.length, 0, entries.length) := by
      conv_lhs => rw [show scrapeDocEntries env slug initState entries
          = ((scrapeDocEntries env slug initState entries).1,
             (scrapeDocEntries env slug initState entries).2.1,
             (scrapeDocEntries env slug initState entries).2.2.1,
             (scrapeDocEntries env slug initState entries).2.2.2) from rfl]
      rw [hsucc, hfld, c3]
    rw [scrapeDoc_ok env slug initState entries hm, hX]
  · exact scrapeDocEntries_store_fault env slug initState entries hk hsf
  · intro hjf
    rw [scrapeDocEntries_st env slug initState entries hk,
        updateJob_job _ _ _ (hjf _)]

/-- The demonstration environment with every content-store write
throwing. -/
def saveFailEnv : Env := { demoEnv with saveFault := fun _ => true }

/-- The run over the one-page manifest with the persistence write
failing. -/
def cexRun6 : Except String (RunState × Nat × Nat × Nat) :=
  scrapeDoc saveFailEnv "js" initState

def cexRun6Succ : Nat :=
  match cexRun6 with
  | .ok (_, su, _, _) => su
  | .error _ => 999

def cexRun6Fld : Nat :=
  match cexRun6 with
  | .ok (_, _, f, _) => f
  | .error _ => 999

def cexRun6JobScraped : Nat :=
  match cexRun6 with
  | .ok (s, _, _, _) => s.job.items_scraped
  | .error _ => 999

def cexRun6JobFailed : Nat :=
  match cexRun6 with
  | .ok (s, _, _, _) => s.job.urls_failed
  | .error _ => 999

/-- **C6 counterexample.**  With the single item's persistence write
throwing, the item increments the success counter (`items_scraped = 1`) and
the failed counter stays `0`, refuting the claim that it is recorded as
`Failed`. -/
theorem claim_save_failure_counted_success_counterexample :
    cexRun6Succ = 1 ∧ cexRun6Fld = 0 ∧
    cexRun6JobScraped = 1 ∧ cexRun6JobFailed = 0 := by
  refine ⟨?_, ?_, ?_, ?_⟩ <;> decide

/-- Witness for the amended C6. -/
theorem claim_save_failure_counted_success_witness :
    scrapeDoc saveFailEnv "js" initState
      = .ok ((scrapeDocEntries saveFailEnv "js" initState [demoEntry]).1,
             1, 0, 1) :=
  (claim_save_failure_counted_success saveFailEnv "js" [demoEntry]
    rfl (by decide) (fun _ => rfl) (by decide)).1
